import Mathlib

/-!
Verification of the SynergySphere team-collaboration backend.

This file shallowly embeds the authorization, task-lifecycle, project-membership,
progress-aggregation and notification logic of the Django source
(apps/common, apps/users, apps/projects, apps/tasks, apps/notifications)
as executable Lean definitions, and proves or refutes the specified
properties about them.  Database rows are modelled as lists of structures;
ORM `save`/`update` calls become pure state transformers; request handlers
become functions returning an `ApiResult`.
-/

/-- User account roles (apps/users/models.py, `ROLE_CHOICES`). -/
inductive URole where
  | member
  | team_leader
  | admin
  deriving DecidableEq, Repr

/-- User model fields relevant to the claims (apps/users/models.py). -/
structure User where
  id : Nat
  email : String
  role : URole
  is_staff : Bool
  is_superuser : Bool
  is_active : Bool
  deriving DecidableEq, Repr

/-- `User.is_admin_user` property: `role == 'admin' or is_staff or is_superuser`. -/
def User.is_admin_user (u : User) : Bool :=
  u.role == URole.admin || u.is_staff || u.is_superuser

/-- Project-membership roles (apps/projects/models.py, `ROLE_CHOICES`). -/
inductive PRole where
  | member
  | manager
  | admin
  deriving DecidableEq, Repr

/-- ProjectMember row (apps/projects/models.py). -/
structure ProjectMember where
  project : Nat
  user : Nat
  role : PRole
  is_active : Bool
  can_create_tasks : Bool
  can_edit_project : Bool
  can_manage_members : Bool
  can_delete_project : Bool
  deriving DecidableEq, Repr

/-- `ProjectMember.save` (apps/projects/models.py): before persisting, the
capability flags are set from the role — admin sets all three, manager sets
`can_edit_project` and `can_manage_members`; the member branch of the
source's if/elif chain sets nothing, leaving existing flags untouched. -/
def ProjectMember.save (m : ProjectMember) : ProjectMember :=
  match m.role with
  | PRole.admin =>
      { m with can_edit_project := true, can_manage_members := true, can_delete_project := true }
  | PRole.manager =>
      { m with can_edit_project := true, can_manage_members := true }
  | PRole.member => m

/-- Project row, fields relevant to the claims (apps/projects/models.py). -/
structure Project where
  id : Nat
  created_by : Nat
  progress : Nat
  is_deleted : Bool
  deriving DecidableEq, Repr

/-- Task statuses (apps/tasks/models.py, `STATUS_CHOICES`). -/
inductive TStatus where
  | todo
  | in_progress
  | review
  | completed
  | cancelled
  deriving DecidableEq, Repr

/-- Task row, fields relevant to the claims (apps/tasks/models.py). -/
structure TaskRow where
  id : Nat
  project : Nat
  title : String
  status : TStatus
  assignee : Option Nat
  completed_at : Option Nat
  updated_at : Nat
  is_deleted : Bool
  deriving DecidableEq, Repr

/-- Keys that can appear in a task update request payload
(the field names compared against string sets in the source). -/
inductive TaskField where
  | title
  | description
  | status
  | priority
  | due_date
  | assignee
  | assignee_id
  | project
  deriving DecidableEq, Repr

/-- HTTP methods distinguished by the task object permission. -/
inductive HttpMethod where
  | get
  | put
  | patch
  deriving DecidableEq, Repr

/-- Outcome of a request handler: success with a value, or an error
response carrying the HTTP status code and message. -/
inductive ApiResult (α : Type) where
  | ok : α → ApiResult α
  | err : Nat → String → ApiResult α
  deriving DecidableEq, Repr

/-- `IsAdminOrTaskOwner.has_object_permission`
(apps/common/admin_permissions.py, lines 42-65): admins (by `role`) are
always allowed; for PUT/PATCH a non-admin is allowed only when they are the
task's assignee and the request's key set is a subset of the singleton set
holding `status`; for GET a non-admin needs to be assignee or a member row
of the task's project (no `is_active` filter in the source query). -/
def IsAdminOrTaskOwner_has_object_permission (u : User) (members : List ProjectMember)
    (t : TaskRow) (m : HttpMethod) (reqKeys : List TaskField) : Bool :=
  if u.role == URole.admin then true
  else
    match m with
    | HttpMethod.put =>
        if t.assignee == some u.id then reqKeys.all (fun f => f == TaskField.status) else false
    | HttpMethod.patch =>
        if t.assignee == some u.id then reqKeys.all (fun f => f == TaskField.status) else false
    | HttpMethod.get =>
        t.assignee == some u.id || members.any (fun pm => pm.project == t.project && pm.user == u.id)

/-- `IsProjectMember.has_object_permission` (apps/common/permissions.py,
lines 23-31): `obj.project.members.filter(user=request.user).exists()` —
the query filters on the user only, with no `is_active` condition. -/
def IsProjectMember_has_object_permission (members : List ProjectMember)
    (u : User) (objProject : Nat) : Bool :=
  members.any (fun m => m.project == objProject && m.user == u.id)

/-- Concrete non-admin user for witnesses. -/
def uAlice : User :=
  { id := 5, email := "alice@example.com", role := URole.member,
    is_staff := false, is_superuser := false, is_active := true }

/-- Concrete task assigned to `uAlice`. -/
def tAlice : TaskRow :=
  { id := 11, project := 3, title := "write report", status := TStatus.todo,
    assignee := some 5, completed_at := none, updated_at := 0, is_deleted := false }

/-- C1: for a non-admin actor, a PUT/PATCH task update is permitted iff the
actor is the task's assignee and every requested field is `status`; hence a
payload containing `assignee` or `project` is always rejected (403 Forbidden),
whatever the other fields are. -/
theorem nonadmin_task_update_permission_iff (u : User) (members : List ProjectMember)
    (t : TaskRow) (reqKeys : List TaskField) (hna : u.role ≠ URole.admin) :
    IsAdminOrTaskOwner_has_object_permission u members t HttpMethod.put reqKeys =
      IsAdminOrTaskOwner_has_object_permission u members t HttpMethod.patch reqKeys ∧
    (IsAdminOrTaskOwner_has_object_permission u members t HttpMethod.patch reqKeys = true ↔
      (t.assignee = some u.id ∧ ∀ f ∈ reqKeys, f = TaskField.status)) ∧
    ((TaskField.assignee ∈ reqKeys ∨ TaskField.project ∈ reqKeys) →
      IsAdminOrTaskOwner_has_object_permission u members t HttpMethod.patch reqKeys = false) := by
  have hb : (u.role == URole.admin) = false := by
    simp [beq_iff_eq]; exact hna
  refine ⟨rfl, ?_, ?_⟩
  · by_cases ha : t.assignee = some u.id
    · simp [IsAdminOrTaskOwner_has_object_permission, hb, ha, List.all_eq_true, beq_iff_eq]
    · simp [IsAdminOrTaskOwner_has_object_permission, hb, beq_iff_eq, ha]
  · intro hmem
    by_cases ha : t.assignee = some u.id
    · simp [IsAdminOrTaskOwner_has_object_permission, hb, ha, List.all_eq_true, beq_iff_eq]
      rcases hmem with hm | hm
      · exact ⟨TaskField.assignee, hm, by simp⟩
      · exact ⟨TaskField.project, hm, by simp⟩
    · simp [IsAdminOrTaskOwner_has_object_permission, hb, beq_iff_eq, ha]

/-- Witness for C1 at a concrete non-admin user, task and payload. -/
theorem nonadmin_task_update_permission_iff_witness :
    IsAdminOrTaskOwner_has_object_permission uAlice [] tAlice HttpMethod.put [TaskField.status] =
      IsAdminOrTaskOwner_has_object_permission uAlice [] tAlice HttpMethod.patch [TaskField.status] ∧
    (IsAdminOrTaskOwner_has_object_permission uAlice [] tAlice HttpMethod.patch [TaskField.status] = true ↔
      (tAlice.assignee = some uAlice.id ∧ ∀ f ∈ [TaskField.status], f = TaskField.status)) ∧
    ((TaskField.assignee ∈ [TaskField.status] ∨ TaskField.project ∈ [TaskField.status]) →
      IsAdminOrTaskOwner_has_object_permission uAlice [] tAlice HttpMethod.patch [TaskField.status] = false) :=
  nonadmin_task_update_permission_iff uAlice [] tAlice [TaskField.status] (by decide)

/-- Concrete membership row whose capability flags were set while it had the
admin role; demotion to member then goes through `save` again. -/
def pmAdminRow : ProjectMember :=
  { project := 1, user := 7, role := PRole.admin, is_active := true,
    can_create_tasks := true, can_edit_project := false,
    can_manage_members := false, can_delete_project := false }

/-- C4 counterexample: after demoting an admin-role member to role `member`
and saving, all three capability flags remain `true` — the claim that role
`member` implies all three are `false` after save fails on the code, because
`ProjectMember.save` has no branch clearing flags. -/
theorem projectMember_demotion_keeps_flags_cex :
    (ProjectMember.save { ProjectMember.save pmAdminRow with role := PRole.member }).role
        = PRole.member ∧
    (ProjectMember.save { ProjectMember.save pmAdminRow with role := PRole.member }).can_edit_project
        = true ∧
    (ProjectMember.save { ProjectMember.save pmAdminRow with role := PRole.member }).can_manage_members
        = true ∧
    (ProjectMember.save { ProjectMember.save pmAdminRow with role := PRole.member }).can_delete_project
        = true := by
  decide

/-- C4 amended: `save` turns on exactly the flags the role implies (admin:
all three; manager: edit and manage) and leaves every other field — and every
already-set flag — unchanged; in particular it never clears a flag, so a
member demoted from admin keeps its old capability flags. -/
theorem projectMember_save_flag_characterization (m : ProjectMember) :
    (ProjectMember.save m).role = m.role ∧
    (ProjectMember.save m).project = m.project ∧
    (ProjectMember.save m).user = m.user ∧
    (ProjectMember.save m).is_active = m.is_active ∧
    (ProjectMember.save m).can_create_tasks = m.can_create_tasks ∧
    ((ProjectMember.save m).can_edit_project = true ↔
        (m.can_edit_project = true ∨ m.role = PRole.admin ∨ m.role = PRole.manager)) ∧
    ((ProjectMember.save m).can_manage_members = true ↔
        (m.can_manage_members = true ∨ m.role = PRole.admin ∨ m.role = PRole.manager)) ∧
    ((ProjectMember.save m).can_delete_project = true ↔
        (m.can_delete_project = true ∨ m.role = PRole.admin)) := by
  cases m with
  | mk proj usr role act cct cep cmm cdp =>
      cases role <;> simp [ProjectMember.save]

/-- Membership row that has been soft-removed (`is_active = false`). -/
def pmInactiveRow : ProjectMember :=
  { project := 3, user := 5, role := PRole.member, is_active := false,
    can_create_tasks := true, can_edit_project := false,
    can_manage_members := false, can_delete_project := false }

/-- C5 counterexample: `uAlice` has only an inactive membership row for
project 3, yet `IsProjectMember.has_object_permission` grants access — the
claim that an actor whose row has `is_active = false` is denied like a
non-member fails, because the source query never filters on `is_active`. -/
theorem inactive_member_granted_cex :
    IsProjectMember_has_object_permission [pmInactiveRow] uAlice 3 = true := by
  rfl

/-- C5 amended: access is denied exactly when no membership row (active or
not) exists for the pair; deactivating every row changes nothing, so an
inactive member is treated like an active one. -/
theorem project_member_permission_ignores_is_active (members : List ProjectMember)
    (u : User) (p : Nat) :
    (IsProjectMember_has_object_permission members u p = false ↔
      ∀ m ∈ members, ¬(m.project = p ∧ m.user = u.id)) ∧
    (IsProjectMember_has_object_permission
        (members.map (fun m => { m with is_active := false })) u p =
      IsProjectMember_has_object_permission members u p) := by
  constructor
  · constructor
    · intro h m hm hc
      have htrue : IsProjectMember_has_object_permission members u p = true :=
        List.any_eq_true.mpr ⟨m, hm, by simp [beq_iff_eq]; exact ⟨hc.1, hc.2⟩⟩
      rw [h] at htrue
      exact Bool.false_ne_true htrue
    · intro h
      rw [← Bool.not_eq_true]
      intro htrue
      rcases List.any_eq_true.mp htrue with ⟨m, hm, hb⟩
      have hb' : m.project = p ∧ m.user = u.id := by
        simpa [beq_iff_eq] using hb
      exact h m hm hb'
  · have hfun : ((fun m : ProjectMember => m.project == p && m.user == u.id) ∘
        fun m : ProjectMember => { m with is_active := false }) =
        (fun m : ProjectMember => m.project == p && m.user == u.id) := by
      funext m
      rfl
    simp only [IsProjectMember_has_object_permission]
    rw [List.any_map, hfun]

/-- `TaskViewSet.update_status` (apps/tasks/views.py, lines 85-108): a
non-admin actor may only touch tasks assigned to them (403 otherwise); a
missing status key is a 400; otherwise the status is written and the task
saved with `update_fields=['status', 'updated_at']` — no other column, in
particular not `completed_at`, is written. -/
def update_status (t : TaskRow) (actor : User) (payloadStatus : Option TStatus)
    (now : Nat) : ApiResult TaskRow :=
  if actor.role != URole.admin && t.assignee != some actor.id then
    ApiResult.err 403 "You can only update status of tasks assigned to you"
  else
    match payloadStatus with
    | none => ApiResult.err 400 "Status field is required"
    | some s => ApiResult.ok { t with status := s, updated_at := now }

/-- Concrete admin actor. -/
def uAdmin : User :=
  { id := 1, email := "admin@example.com", role := URole.admin,
    is_staff := true, is_superuser := true, is_active := true }

/-- Concrete task in status todo with no completion timestamp. -/
def tTodo : TaskRow :=
  { id := 21, project := 3, title := "ship release", status := TStatus.todo,
    assignee := some 5, completed_at := none, updated_at := 0, is_deleted := false }

/-- C2 counterexample: updating `tTodo` into status completed succeeds but
leaves `completed_at = none` — the claim that the transition stamps
`completed_at` with the transition time fails: no code path writes it. -/
theorem update_status_completed_at_cex :
    update_status tTodo uAdmin (some TStatus.completed) 7 =
      ApiResult.ok { tTodo with status := TStatus.completed, updated_at := 7 } ∧
    ({ tTodo with status := TStatus.completed, updated_at := 7 } : TaskRow).completed_at
      = none := by
  constructor
  · rfl
  · rfl

/-- C2 amended: a successful `update_status` writes exactly the requested
status and `updated_at`; `completed_at` always keeps its prior value (null
unless previously set), so a transition into completed does not stamp it,
and repeating the same transition returns the task unchanged. -/
theorem update_status_preserves_completed_at (t t' : TaskRow) (actor : User)
    (s : TStatus) (now : Nat)
    (h : update_status t actor (some s) now = ApiResult.ok t') :
    t'.status = s ∧ t'.completed_at = t.completed_at ∧ t'.project = t.project ∧
      t'.assignee = t.assignee ∧ t'.is_deleted = t.is_deleted ∧
      update_status t' actor (some s) now = ApiResult.ok t' := by
  cases hcond : (actor.role != URole.admin && t.assignee != some actor.id) with
  | true =>
      simp [update_status, hcond] at h
  | false =>
      simp only [update_status, hcond, Bool.false_eq_true, if_false] at h
      simp only [ApiResult.ok.injEq] at h
      subst h
      refine ⟨rfl, rfl, rfl, rfl, rfl, ?_⟩
      simp [update_status, hcond]

/-- Witness for C2 amended at a concrete transition into completed. -/
theorem update_status_preserves_completed_at_witness :
    ({ tTodo with status := TStatus.completed, updated_at := 7 } : TaskRow).status
        = TStatus.completed ∧
    ({ tTodo with status := TStatus.completed, updated_at := 7 } : TaskRow).completed_at
        = tTodo.completed_at ∧
    ({ tTodo with status := TStatus.completed, updated_at := 7 } : TaskRow).project
        = tTodo.project ∧
    ({ tTodo with status := TStatus.completed, updated_at := 7 } : TaskRow).assignee
        = tTodo.assignee ∧
    ({ tTodo with status := TStatus.completed, updated_at := 7 } : TaskRow).is_deleted
        = tTodo.is_deleted ∧
    update_status { tTodo with status := TStatus.completed, updated_at := 7 } uAdmin
        (some TStatus.completed) 7 =
      ApiResult.ok { tTodo with status := TStatus.completed, updated_at := 7 } :=
  update_status_preserves_completed_at tTodo
    { tTodo with status := TStatus.completed, updated_at := 7 } uAdmin
    TStatus.completed 7 (by rfl)

/-- Role write shared by the admin user-management endpoints: setting role
admin grants `is_staff`/`is_superuser`, any other role clears them. -/
def applyRoleChange (u : User) (r : URole) : User :=
  match r with
  | URole.admin => { u with role := URole.admin, is_staff := true, is_superuser := true }
  | URole.team_leader => { u with role := URole.team_leader, is_staff := false, is_superuser := false }
  | URole.member => { u with role := URole.member, is_staff := false, is_superuser := false }

/-- Number of active users whose account role is admin
(`User.objects.filter(role='admin', is_active=True).count()`). -/
def activeAdminCount (db : List User) : Nat :=
  (db.filter (fun u => u.role == URole.admin && u.is_active)).length

/-- `AdminPromoteUserView.post`, demote branch (apps/users/views.py, lines
315-331): admin actor required; target must currently have role admin;
refuses when at most one active admin-role user exists; otherwise writes
role member and clears the staff flags on the target row. -/
def adminDemote (db : List User) (actor : User) (pk : Nat) : ApiResult (List User) :=
  if !actor.is_admin_user then ApiResult.err 403 "Admin access required"
  else
    match db.find? (fun u => u.id == pk) with
    | none => ApiResult.err 404 "User not found"
    | some target =>
        if target.role != URole.admin then ApiResult.err 400 "User is not an admin"
        else if activeAdminCount db <= 1 then
          ApiResult.err 400 "Cannot demote the last admin user"
        else
          ApiResult.ok (db.map (fun u =>
            if u.id == pk then applyRoleChange u URole.member else u))

/-- `AdminUserManagementView.patch` (apps/users/views.py, lines 235-262):
generic role update; validates that a role value is supplied but performs no
last-admin check of any kind before writing. -/
def adminPatchRole (db : List User) (actor : User) (pk : Nat)
    (newRole : Option URole) : ApiResult (List User) :=
  if !actor.is_admin_user then ApiResult.err 403 "Admin access required"
  else
    match db.find? (fun u => u.id == pk) with
    | none => ApiResult.err 404 "User not found"
    | some _ =>
        match newRole with
        | none => ApiResult.err 400 "Invalid role"
        | some r =>
            ApiResult.ok (db.map (fun u =>
              if u.id == pk then applyRoleChange u r else u))

/-- The platform's only active admin. -/
def soleAdmin : User :=
  { id := 1, email := "root@example.com", role := URole.admin,
    is_staff := true, is_superuser := true, is_active := true }

/-- C3 counterexample: with a single active admin, the generic role-patch
endpoint demotes them to member without any Conflict, leaving zero active
admins — so the invariant is not preserved through every role-changing
operation. -/
theorem adminPatchRole_last_admin_cex :
    adminPatchRole [soleAdmin] soleAdmin 1 (some URole.member) =
      ApiResult.ok [applyRoleChange soleAdmin URole.member] ∧
    activeAdminCount [applyRoleChange soleAdmin URole.member] = 0 := by
  constructor
  · rfl
  · rfl

/-- With pairwise-distinct ids, at most one row matches a given id. -/
theorem countP_id_le_one (db : List User) (pk : Nat)
    (hnd : (db.map User.id).Nodup) :
    db.countP (fun u => u.id == pk) <= 1 := by
  induction db with
  | nil => simp
  | cons u l ih =>
      rw [List.map_cons, List.nodup_cons] at hnd
      rcases hnd with ⟨hu, hl⟩
      rw [List.countP_cons]
      by_cases hid : u.id = pk
      · have hzero : l.countP (fun v => v.id == pk) = 0 := by
          rw [List.countP_eq_zero]
          intro v hv
          simp only [beq_iff_eq]
          intro hvpk
          exact hu (by rw [← hid] at hvpk; exact (List.mem_map).mpr ⟨v, hv, hvpk⟩)
        simp [hzero, hid]
      · have h0 : (u.id == pk) = false := by simp [beq_iff_eq]; exact hid
        simp [h0]
        exact ih hl

/-- If at least two active admin-role rows exist and ids are distinct, an
active admin row survives demoting the row with id `pk`. -/
theorem demote_keeps_an_admin (db : List User) (pk : Nat)
    (hnd : (db.map User.id).Nodup)
    (h2 : 2 <= db.countP (fun u => u.role == URole.admin && u.is_active)) :
    1 <= (db.map (fun u => if u.id == pk then applyRoleChange u URole.member else u)).countP
        (fun u => u.role == URole.admin && u.is_active) := by
  have hidle : db.countP (fun u => u.id == pk) <= 1 := countP_id_le_one db pk hnd
  have hcf : (db.filter (fun u => u.role == URole.admin && u.is_active)).countP
      (fun u => u.id == pk) <= 1 := by
    rw [List.countP_filter]
    calc db.countP (fun u => (u.id == pk) && (u.role == URole.admin && u.is_active))
        <= db.countP (fun u => u.id == pk) := by
          apply List.countP_mono_left
          intro x _ hx
          exact (Bool.and_eq_true _ _ ▸ hx).1
      _ <= 1 := hidle
  have hlen : 2 <= (db.filter (fun u => u.role == URole.admin && u.is_active)).length := by
    rw [← List.countP_eq_length_filter]
    exact h2
  have hex : ∃ x ∈ db.filter (fun u => u.role == URole.admin && u.is_active),
      (x.id == pk) = false := by
    by_contra hcon
    push_neg at hcon
    have hall : (db.filter (fun u => u.role == URole.admin && u.is_active)).countP
        (fun u => u.id == pk)
        = (db.filter (fun u => u.role == URole.admin && u.is_active)).length := by
      apply List.countP_eq_length.mpr
      intro x hx
      cases h : (x.id == pk) with
      | true => rfl
      | false => exact absurd h (hcon x hx)
    omega
  rcases hex with ⟨x, hxf, hxid⟩
  rcases (List.mem_filter).mp hxf with ⟨hxdb, hxadm⟩
  have hgx : (if x.id == pk then applyRoleChange x URole.member else x) = x := by
    rw [hxid]
    simp
  have hxmem : x ∈ db.map (fun u => if u.id == pk then applyRoleChange u URole.member else u) :=
    List.mem_map.mpr ⟨x, hxdb, hgx⟩
  exact List.countP_pos_iff.mpr ⟨x, hxmem, hxadm⟩

/-- C3 amended: only the dedicated demote endpoint guards the platform-wide
last active admin: with an admin actor and an admin-role target, it fails
with the Conflict-style error when at most one active admin-role user
exists, and with at least two it succeeds while keeping at least one active
admin (given distinct user ids).  The generic role-patch endpoint performs
no such check (see the counterexample), and no project-level ProjectMember
demotion guard exists in the code. -/
theorem adminDemote_guards_last_admin (db : List User) (actor target : User)
    (pk : Nat)
    (hnd : (db.map User.id).Nodup)
    (hact : actor.is_admin_user = true)
    (hfind : db.find? (fun u => u.id == pk) = some target)
    (hrole : target.role = URole.admin) :
    (activeAdminCount db <= 1 →
      adminDemote db actor pk = ApiResult.err 400 "Cannot demote the last admin user") ∧
    (2 <= activeAdminCount db →
      adminDemote db actor pk =
        ApiResult.ok (db.map (fun u =>
          if u.id == pk then applyRoleChange u URole.member else u)) ∧
      1 <= activeAdminCount (db.map (fun u =>
        if u.id == pk then applyRoleChange u URole.member else u))) := by
  have hcnt : ∀ l : List User,
      activeAdminCount l = l.countP (fun u => u.role == URole.admin && u.is_active) := by
    intro l
    rw [activeAdminCount, List.countP_eq_length_filter]
  have hcore : adminDemote db actor pk =
      (if activeAdminCount db <= 1 then
        ApiResult.err 400 "Cannot demote the last admin user"
      else ApiResult.ok (db.map (fun u =>
        if u.id == pk then applyRoleChange u URole.member else u))) := by
    rw [adminDemote, hact]
    simp only [Bool.not_true, Bool.false_eq_true, if_false, hfind]
    rw [hrole]
    simp
  constructor
  · intro hle
    rw [hcore, if_pos hle]
  · intro hge
    have hnotle : ¬ activeAdminCount db <= 1 := by omega
    constructor
    · rw [hcore, if_neg hnotle]
    · rw [hcnt]
      apply demote_keeps_an_admin db pk hnd
      rw [← hcnt]
      exact hge

/-- A second active admin. -/
def secondAdmin : User :=
  { id := 2, email := "ops@example.com", role := URole.admin,
    is_staff := true, is_superuser := true, is_active := true }

/-- Witness for C3 amended at a two-admin database. -/
theorem adminDemote_guards_last_admin_witness :
    (activeAdminCount [soleAdmin, secondAdmin] <= 1 →
      adminDemote [soleAdmin, secondAdmin] soleAdmin 2 =
        ApiResult.err 400 "Cannot demote the last admin user") ∧
    (2 <= activeAdminCount [soleAdmin, secondAdmin] →
      adminDemote [soleAdmin, secondAdmin] soleAdmin 2 =
        ApiResult.ok ([soleAdmin, secondAdmin].map (fun u =>
          if u.id == 2 then applyRoleChange u URole.member else u)) ∧
      1 <= activeAdminCount ([soleAdmin, secondAdmin].map (fun u =>
        if u.id == 2 then applyRoleChange u URole.member else u))) :=
  adminDemote_guards_last_admin [soleAdmin, secondAdmin] soleAdmin secondAdmin 2
    (by decide) (by decide) (by decide) (by decide)


/-- Round-to-nearest (ties upward) of the rational `num / den` — this is the
spec's `round(100 * completed_tasks / total_tasks)`, written from the spec's
words for comparison against the source's computation. -/
def roundNearest (num den : Nat) : Nat :=
  (2 * num + den) / (2 * den)

/-- Round the nonnegative rational `num / den` to the nearest integer,
ties to even. -/
def rnEven (num den : Nat) : Nat :=
  let q := num / den
  let r := num % den
  if 2 * r < den then q
  else if den < 2 * r then q + 1
  else if q % 2 = 0 then q else q + 1

/-- One halving step per unit of fuel; stops below 2. -/
def log2fuel : Nat → Nat → Nat
  | 0, _ => 0
  | fuel + 1, n => if 2 <= n then log2fuel fuel (n / 2) + 1 else 0

/-- Floor of log2 for positive `n`, computed structurally (`n` units of fuel
always cover the at most log2 `n` halvings). -/
def nlog2 (n : Nat) : Nat :=
  log2fuel n n

/-- Does `2 ^ e <= n / d` hold for the exact rational `n / d`? -/
def pow2LeRat (e : Int) (n d : Nat) : Bool :=
  if 0 <= e then d * 2 ^ e.toNat <= n else d <= n * 2 ^ (-e).toNat

/-- Floor of log2 of the positive rational `n / d`: the bit-length estimate
`nlog2 n - nlog2 d` is exact or one too high, so one downward adjustment
suffices. -/
def ratLog2 (n d : Nat) : Int :=
  let c : Int := (nlog2 n : Int) - (nlog2 d : Int)
  if pow2LeRat c n d then c else c - 1

/-- Scale the rational `n / d` by `2 ^ s`, keeping it exact. -/
def scalePow2 (n d : Nat) (s : Int) : Nat × Nat :=
  if 0 <= s then (n * 2 ^ s.toNat, d) else (n, d * 2 ^ (-s).toNat)

/-- The IEEE binary64 value nearest to the exact rational `n / d` (round to
nearest, ties to even, 53-bit significand), returned as an exact rational
whose denominator is a power of two: the significand is the correctly
rounded 53-bit scaling of `n / d`.  Only the normal range is modelled:
gradual underflow and overflow do not occur for the quotients and products
computed below (they would need task counts beyond `2 ^ 1022`). -/
def fl64 (n d : Nat) : Nat × Nat :=
  if n = 0 then (0, 1)
  else
    let e := ratLog2 n d
    let s : Int := 52 - e
    let nd := scalePow2 n d s
    let m := rnEven nd.1 nd.2
    if 0 <= s then (m, 2 ^ s.toNat) else (m * 2 ^ (-s).toNat, 1)

/-- Python's `int((completed / total) * 100)` over IEEE binary64, exactly:
the true-division `completed / total` is one correctly rounded binary64
operation, the multiplication by 100 a second one, and `int` truncates
toward zero (floor, as the value is nonnegative).  Meaningful only for
`0 < total`, as guarded at the call site (Python would raise on zero). -/
def pyProgress (completed total : Nat) : Nat :=
  let q := fl64 completed total
  let p := fl64 (q.1 * 100) q.2
  p.1 / p.2

/-- Loop body of `update_project_progress` (backend
apps/common/tasks.py, lines 166-185) for one project: count the project's
non-deleted tasks; with at least one, recompute progress as
`int((completed_tasks / total_tasks) * 100)` in binary64 (`pyProgress`) and
assign it only when it differs from the stored value; the Bool records
whether the row was written. -/
def progressStep (tasks : List TaskRow) (p : Project) : Project × Bool :=
  let ts := tasks.filter (fun t => t.project == p.id && !t.is_deleted)
  let total := ts.length
  if 0 < total then
    let completedCount := (ts.filter (fun t => t.status == TStatus.completed)).length
    let newProgress := pyProgress completedCount total
    if p.progress != newProgress then ({ p with progress := newProgress }, true)
    else (p, false)
  else (p, false)

/-- `update_project_progress`: iterate over the non-deleted projects
(deleted projects are excluded by the queryset, hence untouched), apply
`progressStep`, and report the number of rows written. -/
def update_project_progress (projects : List Project) (tasks : List TaskRow) :
    List Project × Nat :=
  (projects.map (fun p => if p.is_deleted then p else (progressStep tasks p).1),
   (projects.filter (fun p => !p.is_deleted && (progressStep tasks p).2)).length)

/-- Project with three tasks, two of them completed. -/
def pTwoThirds : Project :=
  { id := 0, created_by := 1, progress := 0, is_deleted := false }

/-- The three tasks of `pTwoThirds`: two completed, one todo. -/
def tasksTwoThirds : List TaskRow :=
  [{ id := 1, project := 0, title := "a", status := TStatus.completed,
     assignee := none, completed_at := none, updated_at := 0, is_deleted := false },
   { id := 2, project := 0, title := "b", status := TStatus.completed,
     assignee := none, completed_at := none, updated_at := 0, is_deleted := false },
   { id := 3, project := 0, title := "c", status := TStatus.todo,
     assignee := none, completed_at := none, updated_at := 0, is_deleted := false }]

/-- C6 counterexample: with 2 of 3 tasks completed the code stores
progress 66 (the binary64 product 66.66666666666666 truncated), while
`round(100 * 2 / 3)` is 67 — and 66 is not the nearest integer to 200/3
under any tie-breaking, since `|200 - 66 * 3| = 2 > 3 / 2`.  The claim that
the recomputation rounds fails: the source truncates. -/
theorem update_project_progress_round_cex :
    (update_project_progress [pTwoThirds] tasksTwoThirds).1 =
      [{ pTwoThirds with progress := 66 }] ∧
    roundNearest (100 * 2) 3 = 67 ∧
    3 < 2 * (200 - 66 * 3) + 2 * (66 * 3 + 3 - 200) := by
  refine ⟨by decide, rfl, by decide⟩

/-- C6 amended: for a project with at least one non-deleted task the step
stores the truncation of the binary64 computation
`int((completed / total) * 100)` (`pyProgress`), leaving every other field
alone, and writes the row exactly when the stored progress differs; a
project with no non-deleted task is skipped unchanged;
`update_project_progress` applies this step to every non-deleted project
and leaves deleted projects untouched.  Because of the two float roundings
this is usually, but not always, `floor(100 * completed / total)`: 29 of
100 stores 28 and 58 of 100 stores 57, one below the exact floor. -/
theorem progressStep_truncates (tasks : List TaskRow) (p : Project) :
    ((tasks.filter (fun t => t.project == p.id && !t.is_deleted)).length = 0 →
      progressStep tasks p = (p, false)) ∧
    (0 < (tasks.filter (fun t => t.project == p.id && !t.is_deleted)).length →
      ((progressStep tasks p).1.progress =
          pyProgress
            ((tasks.filter (fun t => t.project == p.id && !t.is_deleted)).filter
              (fun t => t.status == TStatus.completed)).length
            (tasks.filter (fun t => t.project == p.id && !t.is_deleted)).length ∧
        (progressStep tasks p).1.id = p.id ∧
        (progressStep tasks p).1.created_by = p.created_by ∧
        (progressStep tasks p).1.is_deleted = p.is_deleted ∧
        ((progressStep tasks p).2 = true ↔
          p.progress ≠
            pyProgress
              ((tasks.filter (fun t => t.project == p.id && !t.is_deleted)).filter
                (fun t => t.status == TStatus.completed)).length
              (tasks.filter (fun t => t.project == p.id && !t.is_deleted)).length))) ∧
    (update_project_progress [p] tasks).1 =
      [if p.is_deleted then p else (progressStep tasks p).1] ∧
    (pyProgress 29 100 = 28 ∧ 29 * 100 / 100 = 29) ∧
    (pyProgress 58 100 = 57 ∧ 58 * 100 / 100 = 58) := by
  refine ⟨?_, ?_, rfl, by decide, by decide⟩
  · intro h0
    rw [progressStep]
    simp [h0]
  · intro hpos
    have hff : ((tasks.filter (fun t => t.project == p.id && !t.is_deleted)).filter
        (fun t => t.status == TStatus.completed))
        = tasks.filter (fun a =>
            a.status == TStatus.completed && (a.project == p.id && !a.is_deleted)) := by
      rw [List.filter_filter]
    rw [hff]
    by_cases hw : p.progress =
        pyProgress
          (tasks.filter (fun a =>
            a.status == TStatus.completed && (a.project == p.id && !a.is_deleted))).length
          (tasks.filter (fun t => t.project == p.id && !t.is_deleted)).length
    · simp [progressStep, hpos, hw]
    · simp [progressStep, hpos, hw]

/-- Witness for C6 amended at the two-of-three-completed project. -/
theorem progressStep_truncates_witness :
    ((tasksTwoThirds.filter (fun t => t.project == pTwoThirds.id && !t.is_deleted)).length = 0 →
      progressStep tasksTwoThirds pTwoThirds = (pTwoThirds, false)) ∧
    (0 < (tasksTwoThirds.filter (fun t => t.project == pTwoThirds.id && !t.is_deleted)).length →
      ((progressStep tasksTwoThirds pTwoThirds).1.progress =
          pyProgress
            ((tasksTwoThirds.filter (fun t => t.project == pTwoThirds.id && !t.is_deleted)).filter
              (fun t => t.status == TStatus.completed)).length
            (tasksTwoThirds.filter (fun t => t.project == pTwoThirds.id && !t.is_deleted)).length ∧
        (progressStep tasksTwoThirds pTwoThirds).1.id = pTwoThirds.id ∧
        (progressStep tasksTwoThirds pTwoThirds).1.created_by = pTwoThirds.created_by ∧
        (progressStep tasksTwoThirds pTwoThirds).1.is_deleted = pTwoThirds.is_deleted ∧
        ((progressStep tasksTwoThirds pTwoThirds).2 = true ↔
          pTwoThirds.progress ≠
            pyProgress
              ((tasksTwoThirds.filter (fun t => t.project == pTwoThirds.id && !t.is_deleted)).filter
                (fun t => t.status == TStatus.completed)).length
              (tasksTwoThirds.filter (fun t => t.project == pTwoThirds.id && !t.is_deleted)).length))) ∧
    (update_project_progress [pTwoThirds] tasksTwoThirds).1 =
      [if pTwoThirds.is_deleted then pTwoThirds
       else (progressStep tasksTwoThirds pTwoThirds).1] ∧
    (pyProgress 29 100 = 28 ∧ 29 * 100 / 100 = 29) ∧
    (pyProgress 58 100 = 57 ∧ 58 * 100 / 100 = 58) :=
  progressStep_truncates tasksTwoThirds pTwoThirds


/-- A task update request body: each field is `some` exactly when the key is
present in `request.data`; `assignee_id` carries `some none` for an explicit
null. -/
structure TaskPayload where
  title : Option String := none
  description : Option String := none
  status : Option TStatus := none
  priority : Option String := none
  due_date : Option Nat := none
  assignee : Option Nat := none
  assignee_id : Option (Option Nat) := none
  project : Option Nat := none
  deriving DecidableEq, Repr

/-- The key set of the request body (`request.data.keys()`). -/
def TaskPayload.keys (d : TaskPayload) : List TaskField :=
  (if d.title.isSome then [TaskField.title] else []) ++
  (if d.description.isSome then [TaskField.description] else []) ++
  (if d.status.isSome then [TaskField.status] else []) ++
  (if d.priority.isSome then [TaskField.priority] else []) ++
  (if d.due_date.isSome then [TaskField.due_date] else []) ++
  (if d.assignee.isSome then [TaskField.assignee] else []) ++
  (if d.assignee_id.isSome then [TaskField.assignee_id] else []) ++
  (if d.project.isSome then [TaskField.project] else [])

/-- DRF deserialization for `TaskSerializer`: the fields listed in
`Meta.read_only_fields` — `project` and `assignee` among them — are not
writable, so they are dropped from the payload before `validate` runs. -/
def dropReadOnly (d : TaskPayload) : TaskPayload :=
  { d with assignee := none, project := none }

/-- `TaskSerializer.validate` (apps/tasks/serializers.py, lines 57-99): the
project-change check (unreachable after `dropReadOnly`), the admin-only
field check on `assignee_id`/`project`, and the assignee existence check.
The status-choices check of the source always passes here, since statuses
are modelled as the enumeration of the valid choices. -/
def TaskSerializer_validate (users : List User) (actor : User) (t : TaskRow)
    (d : TaskPayload) : ApiResult TaskPayload :=
  if (match d.project with
      | some pr => pr != t.project
      | none => false) then
    ApiResult.err 400 "Cannot change project for existing task"
  else if !actor.is_admin_user && (d.assignee_id.isSome || d.project.isSome) then
    ApiResult.err 400 "Only admins can modify admin-only fields"
  else if d.assignee_id.isSome && !actor.is_admin_user then
    ApiResult.err 400 "Only admins can assign tasks"
  else
    match d.assignee_id with
    | some (some aid) =>
        if (users.find? (fun u => u.id == aid)).isNone then
          ApiResult.err 400 "Invalid assignee ID"
        else ApiResult.ok d
    | _ => ApiResult.ok d

/-- `super().update`: apply the remaining writable fields to the instance
and stamp `updated_at`. -/
def applyFields (t : TaskRow) (d : TaskPayload) (now : Nat) : TaskRow :=
  { t with
    title := d.title.getD t.title,
    status := d.status.getD t.status,
    updated_at := now }

/-- The effective `TaskSerializer.update` (the later of the two definitions
in the source; Python keeps only it): pop `assignee_id`, resolve it to a
user for admins (non-admins' values are dropped with a warning), then apply
the remaining fields. -/
def TaskSerializer_update (users : List User) (actor : User) (t : TaskRow)
    (d : TaskPayload) (now : Nat) : ApiResult TaskRow :=
  match d.assignee_id with
  | none => ApiResult.ok (applyFields t d now)
  | some aidOpt =>
      if actor.is_admin_user then
        match aidOpt with
        | some aid =>
            match users.find? (fun u => u.id == aid) with
            | some u => ApiResult.ok (applyFields { t with assignee := some u.id } d now)
            | none => ApiResult.err 400 "Invalid assignee ID"
        | none => ApiResult.ok (applyFields { t with assignee := none } d now)
      else ApiResult.ok (applyFields t d now)

/-- A PATCH /tasks/{id} end to end: object permission on the raw key set,
read-only key dropping, `validate`, then `update`
(apps/tasks/views.py `TaskViewSet` + apps/tasks/serializers.py). -/
def patchTask (users : List User) (members : List ProjectMember) (actor : User)
    (t : TaskRow) (raw : TaskPayload) (now : Nat) : ApiResult TaskRow :=
  if !(IsAdminOrTaskOwner_has_object_permission actor members t HttpMethod.patch raw.keys) then
    ApiResult.err 403 "Forbidden"
  else
    match TaskSerializer_validate users actor t (dropReadOnly raw) with
    | ApiResult.err c msg => ApiResult.err c msg
    | ApiResult.ok d => TaskSerializer_update users actor t d now

/-- Payload whose only key is a `project` differing from the stored one. -/
def rawProjChange : TaskPayload := { project := some 2 }

/-- C7 counterexample: an admin PATCH carrying `project = 2` on a task whose
stored project is 3 succeeds with the project unchanged — no ImmutableField
validation error is raised, because `project` is read-only and is dropped
before the serializer's explicit change check can see it. -/
theorem patchTask_project_ignored_cex :
    patchTask [] [] uAdmin tAlice rawProjChange 9 =
      ApiResult.ok { tAlice with updated_at := 9 } ∧
    rawProjChange.project = some 2 ∧
    tAlice.project = 3 ∧
    ({ tAlice with updated_at := 9 } : TaskRow).project = 3 := by
  refine ⟨rfl, rfl, rfl, rfl⟩

/-- `TaskSerializer_update` never writes the project column. -/
theorem TaskSerializer_update_preserves_project (users : List User) (actor : User)
    (t t' : TaskRow) (d : TaskPayload) (now : Nat)
    (h : TaskSerializer_update users actor t d now = ApiResult.ok t') :
    t'.project = t.project := by
  rw [TaskSerializer_update] at h
  cases haid : d.assignee_id with
  | none =>
      rw [haid] at h
      injection h with h'
      subst h'
      rfl
  | some aidOpt =>
      rw [haid] at h
      by_cases hadm : actor.is_admin_user = true
      · cases aidOpt with
        | none =>
            simp only [hadm, if_true] at h
            injection h with h'
            subst h'
            rfl
        | some aid =>
            simp only [hadm, if_true] at h
            cases hf : users.find? (fun u => u.id == aid) with
            | none =>
                rw [hf] at h
                exact absurd h (by simp)
            | some u =>
                rw [hf] at h
                injection h with h'
                subst h'
                rfl
      · have hadm' : actor.is_admin_user = false := by
          cases hx : actor.is_admin_user with
          | true => exact absurd hx hadm
          | false => rfl
        simp only [hadm', Bool.false_eq_true, if_false] at h
        injection h with h'
        subst h'
        rfl

/-- C7 amended: a `project` key in an update payload is never applied — on
every success path the stored project is unchanged — and a non-admin whose
payload carries `project` is rejected 403 Forbidden by the object
permission; the serializer's explicit ImmutableField check is unreachable,
so no path raises it. -/
theorem patchTask_project_immutable (users : List User) (members : List ProjectMember)
    (actor : User) (t : TaskRow) (raw : TaskPayload) (now : Nat) :
    (∀ t', patchTask users members actor t raw now = ApiResult.ok t' →
      t'.project = t.project) ∧
    (actor.role ≠ URole.admin → raw.project.isSome = true →
      patchTask users members actor t raw now = ApiResult.err 403 "Forbidden") := by
  constructor
  · intro t' h
    rw [patchTask] at h
    by_cases hp : IsAdminOrTaskOwner_has_object_permission actor members t
        HttpMethod.patch raw.keys = true
    · simp only [hp, Bool.not_true, Bool.false_eq_true, if_false] at h
      cases hv : TaskSerializer_validate users actor t (dropReadOnly raw) with
      | err c msg =>
          rw [hv] at h
          exact absurd h (by simp)
      | ok d =>
          rw [hv] at h
          exact TaskSerializer_update_preserves_project users actor t t' d now h
    · have hp' : IsAdminOrTaskOwner_has_object_permission actor members t
          HttpMethod.patch raw.keys = false := by
        cases hx : IsAdminOrTaskOwner_has_object_permission actor members t
            HttpMethod.patch raw.keys with
        | true => exact absurd hx hp
        | false => rfl
      simp only [hp', Bool.not_false, if_true] at h
      exact absurd h (by simp)
  · intro hna hsome
    have hmem : TaskField.project ∈ raw.keys := by
      rw [TaskPayload.keys]
      simp [hsome]
    have hb : (actor.role == URole.admin) = false := by
      simp [beq_iff_eq]
      exact hna
    have hall : raw.keys.all (fun f => f == TaskField.status) = false := by
      cases hx : raw.keys.all (fun f => f == TaskField.status) with
      | true =>
          have := (List.all_eq_true.mp hx) _ hmem
          exact absurd this (by simp)
      | false => rfl
    have hperm : IsAdminOrTaskOwner_has_object_permission actor members t
        HttpMethod.patch raw.keys = false := by
      simp only [IsAdminOrTaskOwner_has_object_permission, hb, Bool.false_eq_true, if_false]
      by_cases ha : (t.assignee == some actor.id) = true
      · simp [ha, hall]
      · simp [ha]
    rw [patchTask]
    simp [hperm]

/-- Witness for C7 amended: a non-admin payload carrying `project` is 403. -/
theorem patchTask_project_immutable_witness :
    patchTask [] [] uAlice tAlice rawProjChange 4 = ApiResult.err 403 "Forbidden" :=
  (patchTask_project_immutable [] [] uAlice tAlice rawProjChange 4).2 (by decide) rfl

/-- `save` rewrites only capability flags: the identifying columns, role and
active flag come through unchanged. -/
theorem projectMember_save_core_fields (m : ProjectMember) :
    (ProjectMember.save m).project = m.project ∧
    (ProjectMember.save m).user = m.user ∧
    (ProjectMember.save m).role = m.role ∧
    (ProjectMember.save m).is_active = m.is_active := by
  cases m with
  | mk proj usr role act cct cep cmm cdp =>
      cases role <;> simp [ProjectMember.save]

/-- At most one membership row per (project, user) pair — the
`unique_together` constraint of `ProjectMember.Meta`. -/
def memberKeysUnique (members : List ProjectMember) : Prop :=
  members.Pairwise (fun a b => ¬(a.project = b.project ∧ a.user = b.user))

/-- Row created by `get_or_create` defaults in `add_member` (requested role,
`is_active=True`, model-default capability flags), then saved. -/
def newMember (projectId userId : Nat) (role : PRole) : ProjectMember :=
  ProjectMember.save
    { project := projectId, user := userId, role := role, is_active := true,
      can_create_tasks := true, can_edit_project := false,
      can_manage_members := false, can_delete_project := false }

/-- `ProjectViewSet.add_member` (apps/projects/views.py, lines 48-82): look
the user up by email; refuse when an active membership row already exists;
`get_or_create` on (project, user) — an existing (necessarily inactive) row
is reactivated with the requested role and saved, otherwise a fresh active
row is appended. -/
def add_member (users : List User) (members : List ProjectMember)
    (projectId : Nat) (email : Option String) (role : PRole) :
    ApiResult (List ProjectMember) :=
  match email with
  | none => ApiResult.err 400 "Email is required"
  | some e =>
      match users.find? (fun u => u.email == e) with
      | none => ApiResult.err 404 "User with this email does not exist"
      | some user =>
          if members.any (fun m => m.project == projectId && m.user == user.id && m.is_active) then
            ApiResult.err 400 "User is already a member of this project"
          else
            match members.find? (fun m => m.project == projectId && m.user == user.id) with
            | some _ =>
                ApiResult.ok (members.map (fun m =>
                  if m.project == projectId && m.user == user.id then
                    ProjectMember.save { m with is_active := true, role := role }
                  else m))
            | none =>
                ApiResult.ok (members ++ [newMember projectId user.id role])

/-- `ProjectViewSet.remove_member` (apps/projects/views.py, lines 84-105):
look up the active membership row (404 when absent); refuse when the member
is the project owner; otherwise soft-remove by clearing `is_active` — the
row is saved, never deleted. -/
def remove_member (project : Project) (members : List ProjectMember)
    (memberId : Nat) : ApiResult (List ProjectMember) :=
  match members.find? (fun m =>
      m.project == project.id && m.user == memberId && m.is_active) with
  | none => ApiResult.err 404 "Member not found"
  | some m =>
      if m.user == project.created_by then
        ApiResult.err 400 "Cannot remove project owner"
      else
        ApiResult.ok (members.map (fun x =>
          if x.project == project.id && x.user == memberId && x.is_active then
            ProjectMember.save { x with is_active := false }
          else x))

/-- C8: `add_member` is an idempotent upsert on the (project, user) pair:
an active row makes it fail as a duplicate membership; an existing
(necessarily inactive) row is reactivated in place with the requested role —
no row is added or removed, other rows are untouched, and key uniqueness is
preserved; with no row at all, one fresh active row with the requested role
is appended, again preserving key uniqueness. -/
theorem add_member_upsert (users : List User) (members : List ProjectMember)
    (projectId : Nat) (e : String) (user : User) (role : PRole)
    (hfind : users.find? (fun u => u.email == e) = some user) :
    (members.any (fun m => m.project == projectId && m.user == user.id && m.is_active) = true →
      add_member users members projectId (some e) role =
        ApiResult.err 400 "User is already a member of this project") ∧
    (members.any (fun m => m.project == projectId && m.user == user.id && m.is_active) = false →
      ∀ m0, members.find? (fun m => m.project == projectId && m.user == user.id) = some m0 →
      ∃ ms', add_member users members projectId (some e) role = ApiResult.ok ms' ∧
        ms'.length = members.length ∧
        (∀ m' ∈ ms', m'.project = projectId → m'.user = user.id →
          (m'.is_active = true ∧ m'.role = role)) ∧
        (∀ m' ∈ ms', ¬(m'.project = projectId ∧ m'.user = user.id) → m' ∈ members) ∧
        (memberKeysUnique members → memberKeysUnique ms')) ∧
    (members.find? (fun m => m.project == projectId && m.user == user.id) = none →
      add_member users members projectId (some e) role =
        ApiResult.ok (members ++ [newMember projectId user.id role]) ∧
      (newMember projectId user.id role).project = projectId ∧
      (newMember projectId user.id role).user = user.id ∧
      (newMember projectId user.id role).is_active = true ∧
      (newMember projectId user.id role).role = role ∧
      (memberKeysUnique members →
        memberKeysUnique (members ++ [newMember projectId user.id role]))) := by
  have hkeyf : ∀ m : ProjectMember,
      ((if m.project == projectId && m.user == user.id then
          ProjectMember.save { m with is_active := true, role := role }
        else m).project = m.project ∧
       (if m.project == projectId && m.user == user.id then
          ProjectMember.save { m with is_active := true, role := role }
        else m).user = m.user) := by
    intro m
    by_cases hc : (m.project == projectId && m.user == user.id) = true
    · rw [if_pos hc]
      exact ⟨(projectMember_save_core_fields _).1, (projectMember_save_core_fields _).2.1⟩
    · rw [if_neg hc]
      exact ⟨rfl, rfl⟩
  refine ⟨?_, ?_, ?_⟩
  · intro hany
    simp only [add_member, hfind, hany, if_true]
  · intro hany m0 hm0
    refine ⟨members.map (fun m =>
      if m.project == projectId && m.user == user.id then
        ProjectMember.save { m with is_active := true, role := role }
      else m), ?_, ?_, ?_, ?_, ?_⟩
    · simp only [add_member, hfind, hany, Bool.false_eq_true, if_false, hm0]
    · exact List.length_map _ _
    · intro m' hm' hp hu
      rcases List.mem_map.mp hm' with ⟨m, hm, hfm⟩
      by_cases hc : (m.project == projectId && m.user == user.id) = true
      · rw [if_pos hc] at hfm
        subst hfm
        constructor
        · exact ((projectMember_save_core_fields _).2.2.2)
        · exact ((projectMember_save_core_fields _).2.2.1)
      · rw [if_neg hc] at hfm
        subst hfm
        exact absurd (by simp [beq_iff_eq, hp, hu]) hc
    · intro m' hm' hnot
      rcases List.mem_map.mp hm' with ⟨m, hm, hfm⟩
      by_cases hc : (m.project == projectId && m.user == user.id) = true
      · rw [if_pos hc] at hfm
        have hcp : m.project = projectId ∧ m.user = user.id := by
          simpa [beq_iff_eq] using hc
        exfalso
        apply hnot
        rw [← hfm]
        exact ⟨((projectMember_save_core_fields _).1).trans hcp.1,
          ((projectMember_save_core_fields _).2.1).trans hcp.2⟩
      · rw [if_neg hc] at hfm
        subst hfm
        exact hm
    · intro hu
      rw [memberKeysUnique]
      apply List.Pairwise.map _ ?_ hu
      intro a b hab hk
      apply hab
      rcases hkeyf a with ⟨hap, hau⟩
      rcases hkeyf b with ⟨hbp, hbu⟩
      exact ⟨hap ▸ hbp ▸ hk.1, hau ▸ hbu ▸ hk.2⟩
  · intro hnone
    have hany : members.any
        (fun m => m.project == projectId && m.user == user.id && m.is_active) = false := by
      cases hx : members.any
          (fun m => m.project == projectId && m.user == user.id && m.is_active) with
      | false => rfl
      | true =>
          rcases List.any_eq_true.mp hx with ⟨m, hm, hprop⟩
          have hno := List.find?_eq_none.mp hnone m hm
          rw [Bool.and_eq_true] at hprop
          exact absurd hprop.1 hno
    refine ⟨?_, ?_, ?_, ?_, ?_, ?_⟩
    · simp only [add_member, hfind, hany, Bool.false_eq_true, if_false, hnone]
    · exact (projectMember_save_core_fields _).1
    · exact (projectMember_save_core_fields _).2.1
    · exact (projectMember_save_core_fields _).2.2.2
    · exact (projectMember_save_core_fields _).2.2.1
    · intro hu
      rw [memberKeysUnique, List.pairwise_append]
      refine ⟨hu, by simp, ?_⟩
      intro a ha b hb
      have hbnew : b = newMember projectId user.id role := by
        simpa using hb
      subst hbnew
      have hno := List.find?_eq_none.mp hnone a ha
      intro hk
      apply hno
      have h1 : a.project = projectId := by
        rw [hk.1]
        exact (projectMember_save_core_fields _).1
      have h2 : a.user = user.id := by
        rw [hk.2]
        exact (projectMember_save_core_fields _).2.1
      simp [beq_iff_eq, h1, h2]

/-- An active membership row for `uAlice` in project 3. -/
def pmActiveRow : ProjectMember :=
  { project := 3, user := 5, role := PRole.member, is_active := true,
    can_create_tasks := true, can_edit_project := false,
    can_manage_members := false, can_delete_project := false }

/-- Witness for C8 at a concrete duplicate-membership call. -/
theorem add_member_upsert_witness :
    add_member [uAlice] [pmActiveRow] 3 (some "alice@example.com") PRole.manager =
      ApiResult.err 400 "User is already a member of this project" :=
  (add_member_upsert [uAlice] [pmActiveRow] 3 "alice@example.com" uAlice PRole.manager
    (by rfl)).1 (by rfl)

/-- C9: `remove_member` on the project owner always fails with the
Conflict-style error, whatever the membership role, leaving the table
unchanged; on any other active member it succeeds by clearing `is_active`
in place — every row is retained (soft removal), non-matching rows are
untouched, and the removed member's row is still present with
`is_active = false`. -/
theorem remove_member_owner_guard (project : Project) (members : List ProjectMember)
    (memberId : Nat) (m : ProjectMember)
    (hfind : members.find? (fun x =>
        x.project == project.id && x.user == memberId && x.is_active) = some m) :
    (project.created_by = memberId →
      remove_member project members memberId =
        ApiResult.err 400 "Cannot remove project owner") ∧
    (project.created_by ≠ memberId →
      ∃ ms', remove_member project members memberId = ApiResult.ok ms' ∧
        ms'.length = members.length ∧
        (∀ x ∈ members,
          (x.project == project.id && x.user == memberId && x.is_active) = false →
            x ∈ ms') ∧
        (∃ x ∈ ms', x.project = project.id ∧ x.user = memberId ∧
          x.is_active = false)) := by
  have hpred := List.find?_some hfind
  have hmem := List.mem_of_find?_eq_some hfind
  rw [Bool.and_eq_true, Bool.and_eq_true] at hpred
  have hmp : m.project = project.id := by simpa [beq_iff_eq] using hpred.1.1
  have hmu : m.user = memberId := by simpa [beq_iff_eq] using hpred.1.2
  have hma : m.is_active = true := hpred.2
  constructor
  · intro hown
    have hcond : (m.user == project.created_by) = true := by
      simp [beq_iff_eq, hmu, hown]
    simp only [remove_member, hfind, hcond, if_true]
  · intro hown
    have hcond : (m.user == project.created_by) = false := by
      simp [beq_iff_eq, hmu]
      intro hc
      exact hown hc.symm
    refine ⟨members.map (fun x =>
      if x.project == project.id && x.user == memberId && x.is_active then
        ProjectMember.save { x with is_active := false }
      else x), ?_, ?_, ?_, ?_⟩
    · simp only [remove_member, hfind, hcond, Bool.false_eq_true, if_false]
    · exact List.length_map _ _
    · intro x hx hxf
      refine List.mem_map.mpr ⟨x, hx, ?_⟩
      rw [if_neg]
      rw [hxf]
      simp
    · have hcm : (m.project == project.id && m.user == memberId && m.is_active) = true := by
        simp [beq_iff_eq, hmp, hmu, hma]
      refine ⟨ProjectMember.save { m with is_active := false },
        List.mem_map.mpr ⟨m, hmem, by rw [if_pos hcm]⟩, ?_, ?_, ?_⟩
      · exact ((projectMember_save_core_fields _).1).trans hmp
      · exact ((projectMember_save_core_fields _).2.1).trans hmu
      · exact (projectMember_save_core_fields _).2.2.2

/-- Project 3, owned by user 1. -/
def pOwned : Project :=
  { id := 3, created_by := 1, progress := 0, is_deleted := false }

/-- Witness for C9 on a non-owner active member. -/
theorem remove_member_owner_guard_witness :
    (pOwned.created_by = 5 →
      remove_member pOwned [pmActiveRow] 5 =
        ApiResult.err 400 "Cannot remove project owner") ∧
    (pOwned.created_by ≠ 5 →
      ∃ ms', remove_member pOwned [pmActiveRow] 5 = ApiResult.ok ms' ∧
        ms'.length = [pmActiveRow].length ∧
        (∀ x ∈ [pmActiveRow],
          (x.project == pOwned.id && x.user == 5 && x.is_active) = false →
            x ∈ ms') ∧
        (∃ x ∈ ms', x.project = pOwned.id ∧ x.user = 5 ∧
          x.is_active = false)) :=
  remove_member_owner_guard pOwned [pmActiveRow] 5 pmActiveRow (by rfl)

/-- Notification row, fields relevant to the claims
(apps/notifications/models.py). -/
structure Notification where
  id : Nat
  recipient : Nat
  is_read : Bool
  read_at : Option Nat
  email_sent : Bool
  deriving DecidableEq, Repr

/-- `MarkAllNotificationsReadView.post` (apps/notifications/views.py, lines
39-53): one queryset `.update(is_read=True)` over the requesting user's
unread notifications, returning the matched count; `.update` writes only
the named column and bypasses the model's `save`/`mark_as_read`. -/
def mark_all_read (ns : List Notification) (userId : Nat) :
    List Notification × Nat :=
  (ns.map (fun n =>
    if n.recipient == userId && !n.is_read then { n with is_read := true } else n),
   (ns.filter (fun n => n.recipient == userId && !n.is_read)).length)

/-- `Notification.mark_as_read` (apps/notifications/models.py, lines 83-87):
the single-notification path is the one that stamps `read_at`. -/
def mark_as_read (n : Notification) (now : Nat) : Notification :=
  { n with is_read := true, read_at := some now }

/-- C10: `mark_all_read` flips `is_read` to true on exactly the requesting
user's unread notifications and changes nothing else: every notification's
`read_at` (and id, recipient, delivery flag) is untouched, notifications of
other users and already-read ones come through identical — and it is
`mark_as_read`, not this bulk path, that stamps `read_at`. -/
theorem mark_all_read_frame (ns : List Notification) (userId : Nat) (i : Nat)
    (now : Nat) (n o : Notification)
    (hn : ns[i]? = some n)
    (ho : ((mark_all_read ns userId).1)[i]? = some o) :
    ((mark_all_read ns userId).1).length = ns.length ∧
    o.read_at = n.read_at ∧
    o.id = n.id ∧ o.recipient = n.recipient ∧ o.email_sent = n.email_sent ∧
    (n.recipient ≠ userId → o = n) ∧
    (n.is_read = true → o = n) ∧
    (n.recipient = userId → n.is_read = false → o.is_read = true) ∧
    mark_as_read n now = { n with is_read := true, read_at := some now } := by
  have hmap : ((mark_all_read ns userId).1)[i]? = (ns[i]?).map (fun n =>
      if n.recipient == userId && !n.is_read then { n with is_read := true } else n) := by
    rw [mark_all_read]
    exact List.getElem?_map _ _ _
  rw [hn] at hmap
  rw [hmap] at ho
  simp only [Option.map_some', Option.some.injEq] at ho
  have hlen : ((mark_all_read ns userId).1).length = ns.length := by
    rw [mark_all_read]
    exact List.length_map _ _
  by_cases hc : (n.recipient == userId && !n.is_read) = true
  · rw [if_pos hc] at ho
    subst ho
    rw [Bool.and_eq_true] at hc
    have hrec : n.recipient = userId := by simpa [beq_iff_eq] using hc.1
    have hunread : n.is_read = false := by simpa using hc.2
    refine ⟨hlen, rfl, rfl, rfl, rfl, ?_, ?_, ?_, rfl⟩
    · intro hne
      exact absurd hrec hne
    · intro hread
      rw [hread] at hunread
      exact absurd hunread (by simp)
    · intro _ _
      rfl
  · rw [if_neg hc] at ho
    subst ho
    refine ⟨hlen, rfl, rfl, rfl, rfl, fun _ => rfl, fun _ => rfl, ?_, rfl⟩
    intro hrec hunread
    exfalso
    apply hc
    simp [beq_iff_eq, hrec, hunread]

/-- An unread notification addressed to user 5. -/
def nUnread : Notification :=
  { id := 1, recipient := 5, is_read := false, read_at := none, email_sent := false }

/-- Witness for C10 at a one-row notification table. -/
theorem mark_all_read_frame_witness :
    ((mark_all_read [nUnread] 5).1).length = [nUnread].length ∧
    ({ nUnread with is_read := true } : Notification).read_at = nUnread.read_at ∧
    ({ nUnread with is_read := true } : Notification).id = nUnread.id ∧
    ({ nUnread with is_read := true } : Notification).recipient = nUnread.recipient ∧
    ({ nUnread with is_read := true } : Notification).email_sent = nUnread.email_sent ∧
    (nUnread.recipient ≠ 5 → ({ nUnread with is_read := true } : Notification) = nUnread) ∧
    (nUnread.is_read = true → ({ nUnread with is_read := true } : Notification) = nUnread) ∧
    (nUnread.recipient = 5 → nUnread.is_read = false →
      ({ nUnread with is_read := true } : Notification).is_read = true) ∧
    mark_as_read nUnread 6 = { nUnread with is_read := true, read_at := some 6 } :=
  mark_all_read_frame [nUnread] 5 0 6 nUnread { nUnread with is_read := true }
    (by rfl) (by rfl)
